import Mathlib

/-!
Verification of the service registry and dispatcher of `services.go`
(package `vapi`): registration-time method discovery (`serviceMap.register`),
dotted-name lookup (`serviceMap.get`, `ApiServer.HasMethod`), the HTTP
handler (`ApiHandler`) and the dispatcher (`ApiServer.ServeHTTP`).

Go strings are modelled as lists of runes (`List Char`).  The character
classification helpers (`unicode.IsUpper`, the separator classification
used by `strings.Title`, `unicode.ToTitle`) are modelled on their ASCII
behaviour; the full Unicode tables are elided.
-/

set_option autoImplicit false

deriving instance DecidableEq for Except

namespace Vapi

/-- A Go string, as a list of runes. -/
abbrev GoString := List Char

/-- Shorthand embedding of a Lean string literal as a `GoString`. -/
def gostr (s : String) : GoString := s.toList

/-- ASCII model of `unicode.IsUpper`. -/
def goIsUpper (c : Char) : Bool := c.isUpper

/-- `isExported` from services.go: decodes the first rune of the name and
asks whether it is upper case.  `utf8.DecodeRuneInString ""` yields
`RuneError`, which is not upper case, so the empty string is not exported. -/
def isExported : GoString → Bool
  | [] => false
  | c :: _ => goIsUpper c

/-- `strings.Contains(s, ".")`. -/
def containsDot : GoString → Bool
  | [] => false
  | c :: rest => if c = '.' then true else containsDot rest

/-- `strings.Split(s, ".")`: split on every dot. -/
def splitOnDot : GoString → List GoString
  | [] => [[]]
  | c :: rest =>
    if c = '.' then [] :: splitOnDot rest
    else
      match splitOnDot rest with
      | [] => [[c]]
      | p :: ps => (c :: p) :: ps

/-- `strings.SplitN(s, ".", 2)`: split at the first dot only. -/
def splitN2Dot : GoString → List GoString
  | [] => [[]]
  | c :: rest =>
    if c = '.' then [[], rest]
    else
      match splitN2Dot rest with
      | [] => [[c]]
      | p :: ps => (c :: p) :: ps

/-- `strings.Join(parts, ".")`. -/
def joinDot : List GoString → GoString
  | [] => []
  | [p] => p
  | p :: rest => p ++ '.' :: joinDot rest

/-- ASCII model of the separator classification used by `strings.Title`:
ASCII alphanumerics and the underscore are not separators, every other
ASCII rune is.  (Non-ASCII letter tables elided.) -/
def goIsSeparator (c : Char) : Bool :=
  !(c.isAlpha || c.isDigit || c = '_')

/-- ASCII model of `unicode.ToTitle`. -/
def goToTitle (c : Char) : Char := c.toUpper

/-- The mapping pass of `strings.Title`: a rune is title-cased when the
previous rune was a separator. -/
def goTitleAux : Bool → GoString → GoString
  | _, [] => []
  | prevSep, c :: rest =>
    (if prevSep then goToTitle c else c) :: goTitleAux (goIsSeparator c) rest

/-- `strings.Title(s)`: the previous rune starts out as `' '`, a separator. -/
def goTitle (s : GoString) : GoString := goTitleAux true s

/-! ## The reflect-level type and method model -/

/-- The fragment of `reflect.Type` that registration inspects: a type is
either a pointer type or a non-pointer type carrying its `Name()` and its
`PkgPath()` (both empty only for unnamed builtins). -/
inductive RType where
  | ptr (elem : RType)
  | base (typeName : GoString) (typePkgPath : GoString)
deriving DecidableEq

/-- `reflect.TypeOf((*http.Request)(nil)).Elem()`. -/
def typeOfRequest : RType := .base (gostr "Request") (gostr "net/http")

/-- `reflect.TypeOf((*error)(nil)).Elem()`. -/
def typeOfError : RType := .base (gostr "error") []

/-- `t.Kind() == reflect.Ptr`. -/
def RType.isPtr : RType → Bool
  | .ptr _ => true
  | .base _ _ => false

/-- `t.Elem()` (only applied to pointer types by the source). -/
def RType.elemType : RType → RType
  | .ptr e => e
  | t => t

/-- `t.Name()`: pointer kinds have an empty name. -/
def RType.rname : RType → GoString
  | .ptr _ => []
  | .base n _ => n

/-- `t.PkgPath()`: pointer kinds have an empty package path. -/
def RType.rpkgPath : RType → GoString
  | .ptr _ => []
  | .base _ p => p

/-- The `for t.Kind() == reflect.Ptr { t = t.Elem() }` loop of
`isExportedOrBuiltin`. -/
def stripPtr : RType → RType
  | .ptr e => stripPtr e
  | t => t

/-- `isExportedOrBuiltin` from services.go. -/
def isExportedOrBuiltin (t : RType) : Bool :=
  isExported (stripPtr t).rname || ((stripPtr t).rpkgPath).isEmpty

/-- First argument check of `register`: a pointer whose element type is
`http.Request`. -/
def isPtrToRequest : RType → Bool
  | .ptr e => decide (e = typeOfRequest)
  | .base _ _ => false

/-- One method of the receiver as reported by `reflect`: its name, its
`PkgPath` (empty iff the method is exported), its `In` types (index 0 is
the receiver) and its `Out` types. -/
structure GoMethod where
  mname : GoString
  mpkgPath : GoString
  ins : List RType
  outs : List RType
deriving DecidableEq

/-- The method filter of `serviceMap.register`: exported, four `In`s
(receiver, `*http.Request`, `*args`, `*reply` with args and reply
exported-or-builtin), one `Out` of type `error`. -/
def qualifies (m : GoMethod) : Bool :=
  m.mpkgPath.isEmpty &&
  (match m.ins, m.outs with
   | [_r, t1, t2, t3], [o] =>
     isPtrToRequest t1 &&
     (t2.isPtr && isExportedOrBuiltin t2) &&
     (t3.isPtr && isExportedOrBuiltin t3) &&
     decide (o = typeOfError)
   | _, _ => false)

/-- `serviceMethod` from services.go: the method plus the element types of
its argument and reply pointers. -/
structure ServiceMethod where
  method : GoMethod
  argsType : RType
  replyType : RType
deriving DecidableEq

/-- The `serviceMethod` stored for a qualifying method (`args.Elem()`,
`reply.Elem()`). -/
def mkServiceMethod (m : GoMethod) : ServiceMethod :=
  { method := m
    argsType := (m.ins.getD 2 (.base [] [])).elemType
    replyType := (m.ins.getD 3 (.base [] [])).elemType }

/-! ## Maps

Go's `map[string]T` reads and writes are modelled by an association list:
`mapLookup` is indexing, `mapInsert` is assignment (replace the binding if
the key is present, append otherwise).  The `nil` map that
`serviceMap.register` lazily allocates is modelled by the empty list (a
lookup in it fails, exactly as in a `nil` Go map). -/

def mapLookup {α : Type} : List (GoString × α) → GoString → Option α
  | [], _ => none
  | (k', v) :: rest, k => if k' = k then some v else mapLookup rest k

def mapInsert {α : Type} : List (GoString × α) → GoString → α → List (GoString × α)
  | [], k, v => [(k, v)]
  | (k', v') :: rest, k, v =>
    if k' = k then (k, v) :: rest else (k', v') :: mapInsert rest k v

/-! ## The service registry -/

/-- `service` from services.go (the receiver value itself carries no
information the registry logic inspects beyond its methods, captured in
`GoReceiver`). -/
structure Service where
  sname : GoString
  methods : List (GoString × ServiceMethod)
deriving DecidableEq

/-- The registry map `serviceMap.services`. -/
abbrev Registry := List (GoString × Service)

/-- What `reflect` reports about a receiver passed to `RegisterService`:
`reflect.Indirect(rcvr).Type().Name()`, `rcvrType.String()` (used only in
an error message), and `rcvrType.Method(i)` for ascending `i`. -/
structure GoReceiver where
  typeName : GoString
  typeString : GoString
  methods : List GoMethod
deriving DecidableEq

/-- The errors `serviceMap.register` can return. -/
inductive RegErr where
  | typeNotExported (n : GoString)
  | noServiceName (typeString : GoString)
  | noSuitableMethods (n : GoString)
  | alreadyDefined (n : GoString)
deriving DecidableEq

/-- The service name after the derivation step: the explicit name, or the
receiver's type name when the explicit name is empty. -/
def resolvedName (rcvr : GoReceiver) (name : GoString) : GoString :=
  if name.isEmpty then rcvr.typeName else name

/-- The method-discovery loop of `register`: iterate over the receiver's
methods in order and store each qualifying one in the methods map under
its name. -/
def buildMethods (ms : List GoMethod) : List (GoString × ServiceMethod) :=
  ms.foldl
    (fun acc m => if qualifies m then mapInsert acc m.mname (mkServiceMethod m) else acc)
    []

/-- The service entry `register` builds for a receiver. -/
def registeredService (rcvr : GoReceiver) (name : GoString) : Service :=
  { sname := resolvedName rcvr name, methods := buildMethods rcvr.methods }

/-- `serviceMap.register` from services.go.  The checks appear in source
order: derived-name export check, empty-name check, method discovery,
empty-method-set check, duplicate-name check, store. -/
def register (reg : Registry) (rcvr : GoReceiver) (name : GoString) :
    Except RegErr Registry :=
  if name.isEmpty && !(isExported rcvr.typeName) then
    .error (.typeNotExported rcvr.typeName)
  else if (resolvedName rcvr name).isEmpty then
    .error (.noServiceName rcvr.typeString)
  else if (buildMethods rcvr.methods).isEmpty then
    .error (.noSuitableMethods (resolvedName rcvr name))
  else if (mapLookup reg (resolvedName rcvr name)).isSome then
    .error (.alreadyDefined (resolvedName rcvr name))
  else
    .ok (mapInsert reg (resolvedName rcvr name) (registeredService rcvr name))

/-- `register` as a state transition: on error the registry is unchanged
(the Go code only assigns into the map after every check has passed). -/
def registerApply (reg : Registry) (rcvr : GoReceiver) (name : GoString) :
    Registry × Option RegErr :=
  match register reg rcvr name with
  | .ok reg' => (reg', none)
  | .error e => (reg, some e)

/-- The errors `serviceMap.get` can return, each carrying the requested
method string exactly as the `fmt.Errorf` calls do. -/
inductive GetErr where
  | illFormed (method : GoString)
  | cantFindService (method : GoString)
  | cantFindMethod (method : GoString)
deriving DecidableEq

/-- `serviceMap.get` from services.go: split on every dot, demand exactly
two parts, then resolve service and method. -/
def serviceGet (reg : Registry) (method : GoString) :
    Except GetErr (Service × ServiceMethod) :=
  let parts := splitOnDot method
  if parts.length ≠ 2 then
    .error (.illFormed method)
  else
    match mapLookup reg (parts.getD 0 []) with
    | none => .error (.cantFindService method)
    | some svc =>
      match mapLookup svc.methods (parts.getD 1 []) with
      | none => .error (.cantFindMethod method)
      | some sm => .ok (svc, sm)

/-- `ApiServer.HasMethod`: true exactly when `get` returns no error. -/
def hasMethod (reg : Registry) (method : GoString) : Bool :=
  match serviceGet reg method with
  | .ok _ => true
  | .error _ => false

/-! ## The dispatcher (`ApiServer.ServeHTTP`) and the handler (`ApiHandler`)

The codec (`CodecRequest`, `serverResponseJSON`, `serverResponseXML`) and
the invoked receiver method live outside services.go; their outcomes enter
the model as inputs: the result of `codecReq.Method()`, the result of
`codecReq.ReadRequest` and the error value returned by the invoked method.
The codec choice (the `format=xml` query suffix) selects only the encoding
of the response body and does not affect anything modelled here. -/

/-- The observable response: which writer ran, with which status and
message, and whether `ServeHTTP`'s
`w.Header().Set("x-content-type-options", "nosniff")` line ran before the
body was written.  `WritePureError` does not set that header. -/
inductive HttpOut where
  | pureErr (status : Nat) (msg : GoString) (nosniff : Bool)
  | codecErr (status : Nat) (msg : GoString) (nosniff : Bool)
  | replyOut (nosniff : Bool)
deriving DecidableEq

/-- Whether the response carries `x-content-type-options: nosniff`. -/
def HttpOut.nosniffSet : HttpOut → Bool
  | .pureErr _ _ n => n
  | .codecErr _ _ n => n
  | .replyOut n => n

/-- The HTTP status of the response. -/
def HttpOut.status : HttpOut → Nat
  | .pureErr s _ _ => s
  | .codecErr s _ _ => s
  | .replyOut _ => 200

/-- The `%q` quoting of `fmt.Errorf` (escaping elided: the strings under
study contain no quotes or control runes). -/
def goQuote (s : GoString) : GoString := '"' :: s ++ ['"']

/-- The message of each `serviceMap.get` error, as `fmt.Errorf` builds it. -/
def GetErr.message : GetErr → GoString
  | .illFormed m => gostr "api: service/method request ill-formed: " ++ goQuote m
  | .cantFindService m => gostr "api: can't find service " ++ goQuote m
  | .cantFindMethod m => gostr "api: can't find method " ++ goQuote m

/-- `ApiServer.ServeHTTP` from services.go.  `methodRes` is the outcome of
`codecReq.Method()`, `decodeErr` the outcome of `codecReq.ReadRequest`,
and `callErr` the error value the invoked method returns; all three are
produced by code outside services.go.  The nosniff header is set only on
the two writes that follow the invocation. -/
def serveHTTP (reg : Registry) (verb : GoString)
    (methodRes : Except GoString GoString)
    (decodeErr : Option GoString) (callErr : Option GoString) : HttpOut :=
  if verb ≠ gostr "POST" ∧ verb ≠ gostr "GET" then
    .pureErr 405 (gostr "api: POST or GET method required, received " ++ verb) false
  else
    match methodRes with
    | .error errMethod => .pureErr 400 errMethod false
    | .ok method =>
      match serviceGet reg method with
      | .error errGet => .codecErr 400 errGet.message false
      | .ok _ =>
        match decodeErr with
        | some errRead => .codecErr 400 errRead false
        | none =>
          match callErr with
          | some errResult => .codecErr 400 errResult true
          | none => .replyOut true

/-- The message of `ApiHandler`'s 404 responses. -/
def notFoundMsg (s : GoString) : GoString := gostr "api: Method not found: " ++ s

/-- The lookup key `ApiHandler` builds: `strings.SplitN(s, ".", 2)`, then
`strings.Title` on the part after the first dot, then `strings.Join`. -/
def apiLookupKey (s : GoString) : GoString :=
  let parts := splitN2Dot s
  joinDot (parts.set 1 (goTitle (parts.getD 1 [])))

/-- `ApiHandler` from services.go, for a request the router forwarded (the
route tree binds only GET and POST).  `methodStr` is the `:method` path
segment stored in the request context.  When the normalized name is
registered, `ServeHTTP` runs; `codecReq.Method()` then yields the
normalized name the handler stored back into the context.

Modelled from the spec: the codec's method extraction ("ask the codec to
extract the method name from the request") returns the context's method
value without error; the codec sources are not part of services.go. -/
def apiHandler (reg : Registry) (methodStr verb : GoString)
    (decodeErr callErr : Option GoString) : HttpOut :=
  if !(containsDot methodStr) then
    .pureErr 404 (notFoundMsg methodStr) false
  else if (splitN2Dot methodStr).length < 2 then
    .pureErr 404 (notFoundMsg methodStr) false
  else if !(hasMethod reg (apiLookupKey methodStr)) then
    .pureErr 404 (notFoundMsg (apiLookupKey methodStr)) false
  else
    serveHTTP reg verb (.ok (apiLookupKey methodStr)) decodeErr callErr

/-- A registration attempt applied to the registry state: the new registry
on success, the old one on error. -/
def applyOps (reg : Registry) : List (GoReceiver × GoString) → Registry
  | [] => reg
  | op :: rest => applyOps (registerApply reg op.1 op.2).1 rest

/-- Whether a registration attempt failed with the `"no service name for
type"` error. -/
def isNoServiceNameErr : Except RegErr Registry → Bool
  | .error (.noServiceName _) => true
  | _ => false

/-- Whether a lookup failed with the `"ill-formed"` error. -/
def isIllFormed : Except GetErr (Service × ServiceMethod) → Bool
  | .error (.illFormed _) => true
  | _ => false

/-! ## Concrete inputs used by witnesses and counterexamples -/

/-- A method that qualifies: exported, `(recv, *http.Request, *Args,
*Reply)` in, `error` out. -/
def demoMethod : GoMethod :=
  { mname := gostr "M"
    mpkgPath := []
    ins := [.base (gostr "Recv") (gostr "pkg"), .ptr typeOfRequest,
            .ptr (.base (gostr "Args") (gostr "pkg")),
            .ptr (.base (gostr "Reply") (gostr "pkg"))]
    outs := [typeOfError] }

/-- A method that does not qualify (wrong arity, no return value). -/
def demoBadMethod : GoMethod :=
  { mname := gostr "Skip"
    mpkgPath := []
    ins := [.base (gostr "Recv") (gostr "pkg")]
    outs := [] }

/-- A receiver with one qualifying method `M`. -/
def demoRcvr : GoReceiver :=
  { typeName := gostr "Recv"
    typeString := gostr "pkg.Recv"
    methods := [demoMethod] }

/-- A receiver with one qualifying and one non-qualifying method. -/
def demoRcvrMixed : GoReceiver :=
  { typeName := gostr "Recv"
    typeString := gostr "pkg.Recv"
    methods := [demoMethod, demoBadMethod] }

/-- The entry stored for `demoRcvr` under the explicit name `"Svc"`. -/
def demoService : Service := registeredService demoRcvr (gostr "Svc")

/-- A registry holding `demoService` under `"Svc"`. -/
def demoReg : Registry := [(gostr "Svc", demoService)]

/-- The entry stored for `demoRcvr` under the dotted explicit name
`"A.B"`. -/
def demoDotService : Service := registeredService demoRcvr (gostr "A.B")

/-- The registry produced by registering `demoRcvr` under `"A.B"`. -/
def demoDotReg : Registry := [(gostr "A.B", demoDotService)]

/-! ## Map lemmas -/

theorem mapLookup_mapInsert {α : Type} (l : List (GoString × α)) (k k' : GoString) (v : α) :
    mapLookup (mapInsert l k v) k' = if k = k' then some v else mapLookup l k' := by
  induction l with
  | nil => simp [mapInsert, mapLookup]
  | cons kv rest ih =>
    obtain ⟨k0, v0⟩ := kv
    by_cases h : k0 = k
    · subst h
      by_cases hk : k0 = k' <;> simp [mapInsert, mapLookup, hk]
    · by_cases hk : k0 = k'
      · have hne : ¬ k = k' := fun he => h (he ▸ hk)
        have hne' : ¬ k' = k := fun he => hne he.symm
        subst hk
        simp [mapInsert, mapLookup, h, hne, hne']
      · simp [mapInsert, mapLookup, h, hk, ih]

theorem mapLookup_mapInsert_isSome {α : Type} (l : List (GoString × α))
    (k k' : GoString) (v : α) :
    (mapLookup (mapInsert l k v) k').isSome = true ↔
      k = k' ∨ (mapLookup l k').isSome = true := by
  rw [mapLookup_mapInsert]
  by_cases h : k = k' <;> simp [h]

/-! ## Method-discovery lemmas -/

theorem buildMethods_go_lookup (ms : List GoMethod)
    (acc : List (GoString × ServiceMethod)) (nm : GoString) :
    (mapLookup
      (ms.foldl
        (fun acc m => if qualifies m then mapInsert acc m.mname (mkServiceMethod m) else acc)
        acc) nm).isSome = true ↔
      (mapLookup acc nm).isSome = true ∨
        ∃ m, m ∈ ms ∧ m.mname = nm ∧ qualifies m = true := by
  induction ms generalizing acc with
  | nil => simp
  | cons m rest ih =>
    simp only [List.foldl_cons, List.mem_cons]
    by_cases hq : qualifies m
    · rw [if_pos hq, ih, mapLookup_mapInsert_isSome]
      constructor
      · rintro ((he | hacc) | ⟨m', hm', hn', hq'⟩)
        · exact Or.inr ⟨m, Or.inl rfl, he, hq⟩
        · exact Or.inl hacc
        · exact Or.inr ⟨m', Or.inr hm', hn', hq'⟩
      · rintro (hacc | ⟨m', (rfl | hm'), hn', hq'⟩)
        · exact Or.inl (Or.inr hacc)
        · exact Or.inl (Or.inl hn')
        · exact Or.inr ⟨m', hm', hn', hq'⟩
    · rw [if_neg hq, ih]
      constructor
      · rintro (hacc | ⟨m', hm', hn', hq'⟩)
        · exact Or.inl hacc
        · exact Or.inr ⟨m', Or.inr hm', hn', hq'⟩
      · rintro (hacc | ⟨m', (rfl | hm'), hn', hq'⟩)
        · exact Or.inl hacc
        · exact absurd hq' (by simp [hq])
        · exact Or.inr ⟨m', hm', hn', hq'⟩

theorem buildMethods_lookup (ms : List GoMethod) (nm : GoString) :
    (mapLookup (buildMethods ms) nm).isSome = true ↔
      ∃ m, m ∈ ms ∧ m.mname = nm ∧ qualifies m = true := by
  rw [buildMethods, buildMethods_go_lookup]
  simp [mapLookup]

theorem buildMethods_filter (ms : List GoMethod) :
    buildMethods (ms.filter (fun m => qualifies m)) = buildMethods ms := by
  unfold buildMethods
  generalize ([] : List (GoString × ServiceMethod)) = acc
  induction ms generalizing acc with
  | nil => rfl
  | cons m rest ih =>
    by_cases hq : qualifies m <;>
      simp [List.filter_cons, hq, List.foldl_cons, ih]

theorem buildMethods_eq_nil (ms : List GoMethod)
    (h : ∀ m, m ∈ ms → qualifies m = false) : buildMethods ms = [] := by
  unfold buildMethods
  induction ms with
  | nil => rfl
  | cons m rest ih =>
    have hm : qualifies m = false := h m (List.mem_cons_self m rest)
    simp only [List.foldl_cons, hm, if_neg (by simp [hm] : ¬ qualifies m = true)]
    exact ih (fun m' hm' => h m' (List.mem_cons_of_mem m hm'))

/-! ## Registration inversion -/

theorem register_ok_elim {reg : Registry} {rcvr : GoReceiver} {name : GoString}
    {reg' : Registry} (h : register reg rcvr name = .ok reg') :
    mapLookup reg (resolvedName rcvr name) = none ∧
    reg' = mapInsert reg (resolvedName rcvr name) (registeredService rcvr name) := by
  unfold register at h
  split at h
  · cases h
  · split at h
    · cases h
    · split at h
      · cases h
      · split at h
        · cases h
        · next hs =>
          refine ⟨?_, (Except.ok.injEq _ _).mp h |>.symm⟩
          cases hl : mapLookup reg (resolvedName rcvr name) with
          | none => rfl
          | some v => exact absurd (by simp [hl]) hs

/-! ## Lookup characterization and monotonicity -/

theorem hasMethod_iff (reg : Registry) (m : GoString) :
    hasMethod reg m = true ↔
      ∃ p0 p1 svc sm, splitOnDot m = [p0, p1] ∧ mapLookup reg p0 = some svc ∧
        mapLookup svc.methods p1 = some sm := by
  simp only [hasMethod, serviceGet]
  cases hsp : splitOnDot m with
  | nil => simp
  | cons p0 t =>
    cases t with
    | nil => simp
    | cons p1 t2 =>
      cases t2 with
      | cons q t3 => simp
      | nil =>
        cases h0 : mapLookup reg p0 with
        | none => simp [h0]
        | some svc =>
          cases h1 : mapLookup svc.methods p1 with
          | none => simp [h0, h1]
          | some sm =>
            refine iff_of_true (by simp [h0, h1]) ?_
            exact ⟨p0, p1, svc, sm, rfl, h0, h1⟩

theorem hasMethod_register_mono {reg reg' : Registry} {rcvr : GoReceiver}
    {name m : GoString} (hr : register reg rcvr name = .ok reg')
    (hm : hasMethod reg m = true) : hasMethod reg' m = true := by
  obtain ⟨hnone, rfl⟩ := register_ok_elim hr
  rw [hasMethod_iff] at hm ⊢
  obtain ⟨p0, p1, svc, sm, hsp, hsvc, hsm⟩ := hm
  refine ⟨p0, p1, svc, sm, hsp, ?_, hsm⟩
  rw [mapLookup_mapInsert]
  by_cases he : resolvedName rcvr name = p0
  · rw [he] at hnone
    rw [hnone] at hsvc
    cases hsvc
  · rw [if_neg he]
    exact hsvc

theorem hasMethod_applyOps_mono {reg : Registry} {m : GoString}
    (ops : List (GoReceiver × GoString)) (hm : hasMethod reg m = true) :
    hasMethod (applyOps reg ops) m = true := by
  induction ops generalizing reg with
  | nil => exact hm
  | cons op rest ih =>
    unfold applyOps registerApply
    cases hr : register reg op.1 op.2 with
    | ok reg' => exact ih (hasMethod_register_mono hr hm)
    | error e => exact ih hm

/-! ## Splitting lemmas -/

theorem splitOnDot_no_dot {s : GoString} (h : containsDot s = false) :
    splitOnDot s = [s] := by
  induction s with
  | nil => rfl
  | cons c rest ih =>
    unfold containsDot at h
    split at h
    · cases h
    · next hc => simp [splitOnDot, hc, ih h]

theorem splitOnDot_append {a : GoString} (b : GoString) (h : containsDot a = false) :
    splitOnDot (a ++ '.' :: b) = a :: splitOnDot b := by
  induction a with
  | nil => simp [splitOnDot]
  | cons c rest ih =>
    unfold containsDot at h
    split at h
    · cases h
    · next hc =>
      have hrec := ih h
      simp only [List.cons_append, splitOnDot, if_neg hc, List.append_eq, hrec]

theorem splitN2Dot_contains {s : GoString} (h : containsDot s = true) :
    ∃ p0 p1, splitN2Dot s = [p0, p1] ∧ containsDot p0 = false ∧
      s = p0 ++ '.' :: p1 := by
  induction s with
  | nil => cases h
  | cons c rest ih =>
    by_cases hc : c = '.'
    · subst hc
      exact ⟨[], rest, by simp [splitN2Dot], rfl, rfl⟩
    · unfold containsDot at h
      rw [if_neg hc] at h
      obtain ⟨p0, p1, hs, hp0, he⟩ := ih h
      refine ⟨c :: p0, p1, ?_, ?_, ?_⟩
      · simp [splitN2Dot, hc, hs]
      · simp [containsDot, hc, hp0]
      · simp [he]

theorem apiLookupKey_eq {s p0 p1 : GoString} (h : splitN2Dot s = [p0, p1]) :
    apiLookupKey s = p0 ++ '.' :: goTitle p1 := by
  simp [apiLookupKey, h, joinDot]

theorem hasMethod_false_of_split {reg : Registry} {m : GoString}
    (h : (splitOnDot m).length ≠ 2) : hasMethod reg m = false := by
  cases hb : hasMethod reg m
  · rfl
  · obtain ⟨p0, p1, svc, sm, hsp, -, -⟩ := (hasMethod_iff reg m).mp hb
    exact absurd (by rw [hsp]; rfl : (splitOnDot m).length = 2) h

/-! ## Claim theorems -/

/-- C1.  Provided registration gets past the name checks, a method of the
receiver is stored in the resulting service entry iff it is exported and
has the signature `(receiver, *http.Request, *args, *reply) → error` with
exported-or-builtin args and reply (`qualifies`); non-qualifying methods
are skipped without affecting the outcome (registering the receiver equals
registering the receiver restricted to its qualifying methods); and if no
method qualifies the attempt fails with the
"no exported methods of suitable type" error. -/
theorem c1_method_qualification (reg : Registry) (rcvr : GoReceiver) (name : GoString)
    (h1 : (name.isEmpty && !(isExported rcvr.typeName)) = false)
    (h2 : (resolvedName rcvr name).isEmpty = false) :
    (∀ reg', register reg rcvr name = .ok reg' →
      ∃ svc, mapLookup reg' (resolvedName rcvr name) = some svc ∧
        ∀ nm, (mapLookup svc.methods nm).isSome = true ↔
          ∃ m, m ∈ rcvr.methods ∧ m.mname = nm ∧ qualifies m = true) ∧
    (register reg rcvr name =
      register reg { rcvr with methods := rcvr.methods.filter (fun m => qualifies m) } name) ∧
    ((∀ m, m ∈ rcvr.methods → qualifies m = false) →
      register reg rcvr name = .error (.noSuitableMethods (resolvedName rcvr name))) := by
  refine ⟨?_, ?_, ?_⟩
  · intro reg' hr
    obtain ⟨hnone, rfl⟩ := register_ok_elim hr
    refine ⟨registeredService rcvr name, ?_, ?_⟩
    · rw [mapLookup_mapInsert, if_pos rfl]
    · intro nm
      exact buildMethods_lookup rcvr.methods nm
  · simp [register, resolvedName, registeredService, buildMethods_filter]
  · intro hall
    have hb : buildMethods rcvr.methods = [] := buildMethods_eq_nil _ hall
    unfold register
    rw [if_neg (by simp [h1]), if_neg (by simp [h2]), if_pos (by simp [hb])]

/-- Witness for C1 at a receiver with one qualifying and one
non-qualifying method, registered under the derived name. -/
theorem c1_method_qualification_witness :
    register [] demoRcvrMixed [] =
      register []
        { demoRcvrMixed with
            methods := demoRcvrMixed.methods.filter (fun m => qualifies m) } [] :=
  (c1_method_qualification [] demoRcvrMixed [] (by decide) (by decide)).2.1

/-- C2.  A registration attempt is all-or-nothing: on success the new
registry is the old one with the complete entry inserted; on any error the
registry is unchanged; and an otherwise-valid attempt under a name already
present fails with "service already defined", leaving the existing entry
(and its methods) in place. -/
theorem c2_registration_atomic (reg : Registry) (rcvr : GoReceiver) (name : GoString) :
    ((registerApply reg rcvr name).2 = none →
      (registerApply reg rcvr name).1 =
        mapInsert reg (resolvedName rcvr name) (registeredService rcvr name)) ∧
    ((registerApply reg rcvr name).2 ≠ none →
      (registerApply reg rcvr name).1 = reg) ∧
    (∀ svc0, mapLookup reg (resolvedName rcvr name) = some svc0 →
      (name.isEmpty && !(isExported rcvr.typeName)) = false →
      (resolvedName rcvr name).isEmpty = false →
      (buildMethods rcvr.methods).isEmpty = false →
      registerApply reg rcvr name =
        (reg, some (.alreadyDefined (resolvedName rcvr name))) ∧
      mapLookup (registerApply reg rcvr name).1 (resolvedName rcvr name) = some svc0) := by
  refine ⟨?_, ?_, ?_⟩
  · intro hn
    cases hr : register reg rcvr name with
    | ok reg' =>
      obtain ⟨-, rfl⟩ := register_ok_elim hr
      simp [registerApply, hr]
    | error e => simp [registerApply, hr] at hn
  · intro hn
    cases hr : register reg rcvr name with
    | ok reg' => exact absurd (by simp [registerApply, hr]) hn
    | error e => simp [registerApply, hr]
  · intro svc0 hl h1 h2 h3
    have hreg : register reg rcvr name =
        .error (.alreadyDefined (resolvedName rcvr name)) := by
      unfold register
      rw [if_neg (by simp [h1]), if_neg (by simp [h2]), if_neg (by simp [h3]),
          if_pos (by simp [hl])]
    refine ⟨by simp [registerApply, hreg], ?_⟩
    simp [registerApply, hreg, hl]

/-- Witness for C2: re-registering under the already-present name `"Svc"`
fails with "service already defined" and leaves the registry unchanged. -/
theorem c2_registration_atomic_witness :
    registerApply demoReg demoRcvr (gostr "Svc") =
      (demoReg, some (.alreadyDefined (gostr "Svc"))) :=
  ((c2_registration_atomic demoReg demoRcvr (gostr "Svc")).2.2 demoService
    (by decide) (by decide) (by decide) (by decide)).1

/-- C3 counterexample: `"Foo."` and `".Bar"` split into exactly two parts
(one empty), so `get` reports "can't find service", not the "ill-formed"
error the claim requires for keys with an empty segment. -/
theorem c3_empty_segment_counterexample :
    serviceGet [] (gostr "Foo.") = .error (.cantFindService (gostr "Foo.")) ∧
    serviceGet [] (gostr ".Bar") = .error (.cantFindService (gostr ".Bar")) := by
  decide

/-- C3 amended.  `get` returns the "ill-formed" error exactly when
splitting the string on dots does not yield exactly two parts (empty or
not); a key with exactly one dot but an empty segment is instead reported
as an unknown service or unknown method. -/
theorem c3_illFormed_iff_split_length (reg : Registry) (m : GoString) :
    (isIllFormed (serviceGet reg m) = true ↔ (splitOnDot m).length ≠ 2) ∧
    ((splitOnDot m).length ≠ 2 → serviceGet reg m = .error (.illFormed m)) := by
  by_cases hl : (splitOnDot m).length = 2
  · have hval : isIllFormed (serviceGet reg m) = false := by
      simp only [serviceGet]
      rw [if_neg (by simp [hl])]
      split
      · rfl
      · split <;> rfl
    exact ⟨by simp [hval, hl], fun h => absurd hl h⟩
  · have hval : serviceGet reg m = .error (.illFormed m) := by
      simp only [serviceGet]
      rw [if_pos hl]
    exact ⟨by simp [hval, isIllFormed, hl], fun _ => hval⟩

/-- Witness for C3's amended theorem at a three-part key. -/
theorem c3_illFormed_iff_split_length_witness :
    serviceGet [] (gostr "Foo.Bar.Baz") =
      .error (.illFormed (gostr "Foo.Bar.Baz")) :=
  (c3_illFormed_iff_split_length [] (gostr "Foo.Bar.Baz")).2 (by decide)

/-- C4.  The handler splits the identifier at the first dot, title-cases
only the part after it (`"Foo.bar"` resolves as `"Foo.Bar"`, the service
segment unchanged), and an identifier with no dot, or whose normalized
form does not split into exactly two parts (such as `"Foo.Bar.Baz"`),
fails resolution with a 404. -/
theorem c4_title_normalization (reg : Registry) (s verb : GoString)
    (decodeErr callErr : Option GoString) :
    (∀ p0 p1, splitN2Dot s = [p0, p1] →
      apiLookupKey s = p0 ++ '.' :: goTitle p1) ∧
    apiLookupKey (gostr "Foo.bar") = gostr "Foo.Bar" ∧
    (containsDot s = false →
      apiHandler reg s verb decodeErr callErr = .pureErr 404 (notFoundMsg s) false) ∧
    ((splitOnDot (apiLookupKey s)).length ≠ 2 → containsDot s = true →
      apiHandler reg s verb decodeErr callErr =
        .pureErr 404 (notFoundMsg (apiLookupKey s)) false) ∧
    apiHandler reg (gostr "Foo.Bar.Baz") verb decodeErr callErr =
      .pureErr 404 (notFoundMsg (gostr "Foo.Bar.Baz")) false := by
  have key4 : ∀ (t : GoString), (splitOnDot (apiLookupKey t)).length ≠ 2 →
      containsDot t = true →
      apiHandler reg t verb decodeErr callErr =
        .pureErr 404 (notFoundMsg (apiLookupKey t)) false := by
    intro t hlen hc
    obtain ⟨p0, p1, hsp, -, -⟩ := splitN2Dot_contains hc
    unfold apiHandler
    rw [if_neg (by simp [hc]), if_neg (by simp [hsp]),
        if_pos (by simp [hasMethod_false_of_split hlen])]
  refine ⟨fun p0 p1 h => apiLookupKey_eq h, by decide, ?_, key4 s, ?_⟩
  · intro h
    unfold apiHandler
    rw [if_pos (by simp [h])]
  · have h5 := key4 (gostr "Foo.Bar.Baz") (by decide) (by decide)
    rw [show apiLookupKey (gostr "Foo.Bar.Baz") = gostr "Foo.Bar.Baz" from by decide] at h5
    exact h5

/-- Witness for C4 at an identifier with no dot. -/
theorem c4_title_normalization_witness :
    apiHandler [] (gostr "Foo") (gostr "GET") none none =
      .pureErr 404 (notFoundMsg (gostr "Foo")) false :=
  (c4_title_normalization [] (gostr "Foo") (gostr "GET") none none).2.2.1 (by decide)

/-- C5.  For a request the router forwarded to the handler, an identifier
with no dot, or otherwise malformed, or not resolving to a registered
service and method, always yields a 404 response whose body says the
method was not found — never a 400 decode error or a 500. -/
theorem c5_unresolvable_is_404 (reg : Registry) (s verb : GoString)
    (decodeErr callErr : Option GoString)
    (h : containsDot s = false ∨ hasMethod reg (apiLookupKey s) = false) :
    (apiHandler reg s verb decodeErr callErr).status = 404 ∧
    ∃ msg, apiHandler reg s verb decodeErr callErr =
      .pureErr 404 (notFoundMsg msg) false := by
  cases hc : containsDot s with
  | false =>
    unfold apiHandler
    rw [if_pos (by simp [hc])]
    exact ⟨rfl, s, rfl⟩
  | true =>
    have hm : hasMethod reg (apiLookupKey s) = false := by
      rcases h with h | h
      · rw [hc] at h
        cases h
      · exact h
    obtain ⟨p0, p1, hsp, -, -⟩ := splitN2Dot_contains hc
    unfold apiHandler
    rw [if_neg (by simp [hc]), if_neg (by simp [hsp]), if_pos (by simp [hm])]
    exact ⟨rfl, apiLookupKey s, rfl⟩

/-- Witness for C5 at an unregistered identifier. -/
theorem c5_unresolvable_is_404_witness :
    (apiHandler [] (gostr "Foo.bar") (gostr "GET") none none).status = 404 :=
  (c5_unresolvable_is_404 [] (gostr "Foo.bar") (gostr "GET") none none
    (Or.inr (by decide))).1

/-- C6.  The dispatcher rejects any verb other than GET and POST with a
405 before anything else: the outcome is the fixed 405 response whatever
the method string, codec outcomes and registry, and coincides with the
outcome over the empty registry (no registry lookup can influence it). -/
theorem c6_verb_validated_first (reg : Registry) (verb : GoString)
    (methodRes : Except GoString GoString) (decodeErr callErr : Option GoString)
    (h1 : verb ≠ gostr "GET") (h2 : verb ≠ gostr "POST") :
    serveHTTP reg verb methodRes decodeErr callErr =
      .pureErr 405 (gostr "api: POST or GET method required, received " ++ verb) false ∧
    serveHTTP reg verb methodRes decodeErr callErr =
      serveHTTP [] verb methodRes decodeErr callErr := by
  have hc : verb ≠ gostr "POST" ∧ verb ≠ gostr "GET" := ⟨h2, h1⟩
  constructor
  · unfold serveHTTP
    rw [if_pos hc]
  · unfold serveHTTP
    rw [if_pos hc, if_pos hc]

/-- Witness for C6 at a DELETE request. -/
theorem c6_verb_validated_first_witness :
    serveHTTP [] (gostr "DELETE") (.ok (gostr "Foo.Bar")) none none =
      .pureErr 405
        (gostr "api: POST or GET method required, received " ++ gostr "DELETE") false :=
  (c6_verb_validated_first [] (gostr "DELETE") (.ok (gostr "Foo.Bar")) none none
    (by decide) (by decide)).1

/-- C7.  When the verb is allowed, the method resolves and the argument
decodes, a non-nil error from the invoked method produces the codec error
response with status 400 carrying that error's message (the reply is not
written), and a nil error produces the encoded reply response. -/
theorem c7_business_error_vs_reply (reg : Registry) (verb method : GoString)
    (hverb : verb = gostr "GET" ∨ verb = gostr "POST")
    (hres : hasMethod reg method = true) :
    (∀ e, serveHTTP reg verb (.ok method) none (some e) = .codecErr 400 e true) ∧
    serveHTTP reg verb (.ok method) none none = .replyOut true := by
  have hv : ¬(verb ≠ gostr "POST" ∧ verb ≠ gostr "GET") := by
    rcases hverb with h | h <;> simp [h]
  cases hg : serviceGet reg method with
  | error e => simp [hasMethod, hg] at hres
  | ok p =>
    obtain ⟨svc, sm⟩ := p
    constructor
    · intro e
      unfold serveHTTP
      rw [if_neg hv]
      simp [hg]
    · unfold serveHTTP
      rw [if_neg hv]
      simp [hg]

/-- Witness for C7 at the registered method `"Svc.M"`. -/
theorem c7_business_error_vs_reply_witness :
    serveHTTP demoReg (gostr "POST") (.ok (gostr "Svc.M")) none none = .replyOut true :=
  (c7_business_error_vs_reply demoReg (gostr "POST") (gostr "Svc.M")
    (Or.inr rfl) (by decide)).2

/-- C8 counterexample: a DELETE request is answered 405 through
`WritePureError`, which never sets `x-content-type-options`, so the header
is not on every response. -/
theorem c8_nosniff_counterexample :
    serveHTTP [] (gostr "DELETE") (.ok (gostr "Foo.Bar")) none none =
      .pureErr 405
        (gostr "api: POST or GET method required, received " ++ gostr "DELETE") false ∧
    (serveHTTP [] (gostr "DELETE") (.ok (gostr "Foo.Bar")) none none).nosniffSet = false := by
  decide

/-- C8 amended.  The dispatcher sets `x-content-type-options: nosniff`
exactly on the responses written after the verb check, method extraction,
registry resolution and argument decode have all succeeded — the encoded
reply and the business-error response; 405 responses, method-extraction
failures, resolution failures and decode failures are written without
it. -/
theorem c8_nosniff_amended (reg : Registry) (verb : GoString)
    (methodRes : Except GoString GoString) (decodeErr callErr : Option GoString) :
    (serveHTTP reg verb methodRes decodeErr callErr).nosniffSet = true ↔
      ¬(verb ≠ gostr "POST" ∧ verb ≠ gostr "GET") ∧
      ∃ method p, methodRes = .ok method ∧ serviceGet reg method = .ok p ∧
        decodeErr = none := by
  unfold serveHTTP
  by_cases hv : verb ≠ gostr "POST" ∧ verb ≠ gostr "GET"
  · simp [hv, HttpOut.nosniffSet]
  · rw [if_neg hv]
    cases methodRes with
    | error e => simp [HttpOut.nosniffSet, hv]
    | ok method =>
      cases hg : serviceGet reg method with
      | error e => simp [HttpOut.nosniffSet, hv, hg]
      | ok p =>
        obtain ⟨svc, sm⟩ := p
        cases decodeErr with
        | some e => simp [HttpOut.nosniffSet, hv, hg]
        | none =>
          cases callErr <;> simp [HttpOut.nosniffSet, hv, hg]

/-- Witness for C8's amended theorem: the header is set on a successful
POST dispatch of `"Svc.M"`. -/
theorem c8_nosniff_amended_witness :
    (serveHTTP demoReg (gostr "POST") (.ok (gostr "Svc.M")) none none).nosniffSet = true :=
  (c8_nosniff_amended demoReg (gostr "POST") (.ok (gostr "Svc.M")) none none).mpr
    ⟨by decide, gostr "Svc.M", (demoService, mkServiceMethod demoMethod), rfl,
      by decide, rfl⟩

/-- C9 counterexample: registration does not validate explicit names, so
the dotted name `"A.B"` registers successfully, yet
`HasMethod("A.B.M")` is false (the key splits into three parts). -/
theorem c9_dotted_name_counterexample :
    register [] demoRcvr (gostr "A.B") = .ok demoDotReg ∧
    hasMethod demoDotReg (gostr "A.B.M") = false := by
  decide

/-- C9 amended.  For a service successfully registered under a dot-free
resolved name with a stored method `M` (method names contain no dot),
`HasMethod("N.M")` is true immediately after registration and stays true
under any later sequence of registration attempts (the registry is
append-only); and `HasMethod` is true exactly when `get` succeeds. -/
theorem c9_append_only_lookup (reg reg' : Registry) (rcvr : GoReceiver)
    (name M : GoString) (ops : List (GoReceiver × GoString))
    (hN : containsDot (resolvedName rcvr name) = false)
    (hM : containsDot M = false)
    (hr : register reg rcvr name = .ok reg')
    (hm : (mapLookup (buildMethods rcvr.methods) M).isSome = true) :
    hasMethod reg' (resolvedName rcvr name ++ '.' :: M) = true ∧
    hasMethod (applyOps reg' ops) (resolvedName rcvr name ++ '.' :: M) = true ∧
    ∀ (r : Registry) (s : GoString),
      hasMethod r s = true ↔ ∃ p, serviceGet r s = .ok p := by
  obtain ⟨sm, hsm⟩ := Option.isSome_iff_exists.mp hm
  have hfirst : hasMethod reg' (resolvedName rcvr name ++ '.' :: M) = true := by
    obtain ⟨hnone, rfl⟩ := register_ok_elim hr
    rw [hasMethod_iff]
    refine ⟨resolvedName rcvr name, M, registeredService rcvr name, sm, ?_, ?_, ?_⟩
    · rw [splitOnDot_append _ hN, splitOnDot_no_dot hM]
    · rw [mapLookup_mapInsert, if_pos rfl]
    · exact hsm
  refine ⟨hfirst, hasMethod_applyOps_mono ops hfirst, ?_⟩
  intro r s
  cases hg : serviceGet r s with
  | ok p => simp [hasMethod, hg]
  | error e => simp [hasMethod, hg]

/-- Witness for C9's amended theorem: `"Svc.M"` resolves right after
registering `demoRcvr` under `"Svc"`, and still after one more
registration attempt. -/
theorem c9_append_only_lookup_witness :
    hasMethod demoReg (gostr "Svc.M") = true ∧
    hasMethod (applyOps demoReg [(demoRcvrMixed, gostr "Other")]) (gostr "Svc.M") = true :=
  have h := c9_append_only_lookup [] demoReg demoRcvr (gostr "Svc") (gostr "M")
    [(demoRcvrMixed, gostr "Other")] (by decide) (by decide) (by decide) (by decide)
  ⟨h.1, h.2.1⟩

/-- C10.  The "no service name for type" branch of `register` is
unreachable: `isExported` is false on the empty string, so an empty
derived name already fails the export check, and a non-empty explicit name
never resolves to empty. -/
theorem c10_noServiceName_unreachable :
    isExported ([] : GoString) = false ∧
    ∀ (reg : Registry) (rcvr : GoReceiver) (name : GoString),
      isNoServiceNameErr (register reg rcvr name) = false := by
  refine ⟨rfl, ?_⟩
  intro reg rcvr name
  unfold register
  split
  · rfl
  · next h1 =>
    split
    · next h2 =>
      exfalso
      by_cases hn : name.isEmpty
      · have ht : rcvr.typeName.isEmpty = true := by
          unfold resolvedName at h2
          rwa [if_pos hn] at h2
        have hexp : isExported rcvr.typeName = false := by
          cases hT : rcvr.typeName with
          | nil => rfl
          | cons c t =>
            rw [hT] at ht
            cases ht
        exact h1 (by simp [hn, hexp])
      · unfold resolvedName at h2
        rw [if_neg hn] at h2
        exact hn h2
    · next h2 =>
      split
      · rfl
      · split
        · rfl
        · rfl

end Vapi
